import Mathlib

/-!
Shallow embedding of the resilient upstream-fetch subsystem of the
`Zyp-Platform/nfl-games` repository, together with theorems settling the
frozen claims about it.

Conventions of the embedding:
* JavaScript `number` timestamps and durations (`Date.now()` milliseconds,
  TTL seconds) are modelled as `ℚ`; counters are `ℕ`.
* Stateful classes become structures, and each mutating method becomes a
  function from the old state (plus the current wall-clock time, standing
  for the `Date.now()` calls the method performs) to the new state, paired
  with the method's return value where it has one.
* `async` methods that can throw are modelled in `Except`.
* `Map`-backed stores are modelled as functions from keys to `Option` values.
-/

/-! ## Domain model: game status and games
Source: `src/api/src/domain/value-objects/game-status.ts` and
`src/api/src/domain/entities/game.entity.ts`. Only the fields the
orchestrator logic reads (`status`, `scheduledAt`, `id`) are carried. -/

/-- GameStatus enum from `game-status.ts`. -/
inductive GameStatus where
  | SCHEDULED
  | PREGAME
  | IN_PROGRESS
  | HALFTIME
  | FINAL
  | FINAL_OVERTIME
  | POSTPONED
  | CANCELLED
  | SUSPENDED
  | DELAYED
deriving DecidableEq, Repr

/-- Helper `isLiveStatus` from `game-status.ts`. -/
def isLiveStatus (status : GameStatus) : Bool :=
  status = GameStatus.IN_PROGRESS ∨ status = GameStatus.HALFTIME

/-- Helper `isCompletedStatus` from `game-status.ts`. -/
def isCompletedStatus (status : GameStatus) : Bool :=
  status = GameStatus.FINAL ∨ status = GameStatus.FINAL_OVERTIME

/-- Game entity (`game.entity.ts`), restricted to the fields the
orchestrators read: `id`, `status` and `scheduledAt` (as epoch ms). -/
structure Game where
  id : String
  status : GameStatus
  scheduledAt : ℚ
deriving DecidableEq, Repr

/-- Getter `Game.isLive` from `game.entity.ts`. -/
def Game.isLive (g : Game) : Bool := isLiveStatus g.status

/-- Getter `Game.isCompleted` from `game.entity.ts`. -/
def Game.isCompleted (g : Game) : Bool := isCompletedStatus g.status

/-! ## Circuit breaker
Source: `src/api/src/infrastructure/resilience/circuit-breaker.ts`. -/

/-- CircuitState enum. -/
inductive CircuitState where
  | CLOSED
  | OPEN
  | HALF_OPEN
deriving DecidableEq, Repr

/-- CircuitBreakerConfig. `successThreshold` is optional in the source;
`none` models it being absent. -/
structure CircuitBreakerConfig where
  failureThreshold : ℚ
  minimumRequests : ℕ
  resetTimeout : ℚ
  successThreshold : Option ℕ := none
deriving DecidableEq, Repr

/-- The mutable fields of the CircuitBreaker class plus its config. -/
structure CircuitBreaker where
  config : CircuitBreakerConfig
  state : CircuitState := CircuitState.CLOSED
  failureCount : ℕ := 0
  successCount : ℕ := 0
  requestCount : ℕ := 0
  lastFailureTime : ℚ := 0
  nextAttemptTime : ℚ := 0
deriving DecidableEq, Repr

/-- A freshly constructed breaker (all counters zero, CLOSED). -/
def CircuitBreaker.fresh (config : CircuitBreakerConfig) : CircuitBreaker :=
  { config := config }

/-- The effective success threshold: `this.config.successThreshold || 1`
(JavaScript `||` turns both `undefined` and `0` into `1`). -/
def CircuitBreakerConfig.successThresholdEff (c : CircuitBreakerConfig) : ℕ :=
  match c.successThreshold with
  | none => 1
  | some n => if n = 0 then 1 else n

/-- Private method `transitionToOpen`; `now` stands for `Date.now()`. -/
def CircuitBreaker.transitionToOpen (b : CircuitBreaker) (now : ℚ) : CircuitBreaker :=
  { b with state := CircuitState.OPEN, nextAttemptTime := now + b.config.resetTimeout }

/-- Private method `transitionToHalfOpen`. -/
def CircuitBreaker.transitionToHalfOpen (b : CircuitBreaker) : CircuitBreaker :=
  { b with state := CircuitState.HALF_OPEN, successCount := 0 }

/-- Private method `transitionToClosed`. -/
def CircuitBreaker.transitionToClosed (b : CircuitBreaker) : CircuitBreaker :=
  { b with state := CircuitState.CLOSED, failureCount := 0, successCount := 0,
           requestCount := 0 }

/-- Method `allowRequest()`: returns the boolean result and the (possibly
mutated) breaker; in OPEN it transitions to HALF_OPEN when
`Date.now() ≥ nextAttemptTime`. -/
def CircuitBreaker.allowRequest (b : CircuitBreaker) (now : ℚ) : Bool × CircuitBreaker :=
  match b.state with
  | CircuitState.CLOSED => (true, b)
  | CircuitState.OPEN =>
      if now ≥ b.nextAttemptTime then (true, b.transitionToHalfOpen) else (false, b)
  | CircuitState.HALF_OPEN => (true, b)

/-- Method `recordSuccess()`. -/
def CircuitBreaker.recordSuccess (b : CircuitBreaker) : CircuitBreaker :=
  let b := { b with requestCount := b.requestCount + 1 }
  if b.state = CircuitState.HALF_OPEN then
    let b := { b with successCount := b.successCount + 1 }
    if b.successCount ≥ b.config.successThresholdEff then b.transitionToClosed else b
  else
    { b with failureCount := 0 }

/-- Method `recordFailure()`; `now` stands for `Date.now()`. -/
def CircuitBreaker.recordFailure (b : CircuitBreaker) (now : ℚ) : CircuitBreaker :=
  let b := { b with failureCount := b.failureCount + 1, requestCount := b.requestCount + 1,
                    lastFailureTime := now }
  if b.state = CircuitState.HALF_OPEN then
    b.transitionToOpen now
  else if b.requestCount ≥ b.config.minimumRequests then
    if ((b.failureCount : ℚ) / (b.requestCount : ℚ)) * 100 ≥ b.config.failureThreshold then
      b.transitionToOpen now
    else b
  else b

/-! ## Provider base class `executeRequest`
Source: `sports-data-provider.ts` (base class of the ESPN provider).
The body after the breaker check — rate-limiter acquisition and the actual
network request — is abstracted as a `RequestOutcome` input; what matters
for the claims is the try/catch structure: every error thrown inside the
`try` block, including the `ProviderUnavailableError` thrown when the
breaker denies admission, is caught by the `catch` block, which calls
`circuitBreaker.recordFailure()` and rethrows the error wrapped in a
`ProviderError`. -/

/-- Outcome of the part of `executeRequest` after the breaker check. -/
inductive RequestOutcome (α : Type) where
  | rateLimitTimeout
  | requestError (msg : String)
  | success (value : α)

/-- The cause recorded inside the wrapping `ProviderError`. -/
inductive ProviderFailureCause where
  | unavailable
  | rateLimit
  | upstream (msg : String)
deriving DecidableEq, Repr

/-- The `ProviderError` every failure is wrapped in before rethrowing. -/
structure ProviderError where
  operation : String
  cause : ProviderFailureCause
deriving DecidableEq, Repr

/-- Method `executeRequest` of `SportsDataProvider`, as a state transformer
on the breaker. Returns the thrown/returned value and the breaker state
after the call. -/
def SportsDataProvider.executeRequest {α : Type} (b : CircuitBreaker) (now : ℚ)
    (operation : String) (outcome : RequestOutcome α) :
    Except ProviderError α × CircuitBreaker :=
  let (allowed, b1) := b.allowRequest now
  if allowed = false then
    -- `throw new ProviderUnavailableError(...)` inside the try block is
    -- caught by the catch block: recordFailure, wrap, rethrow.
    (Except.error { operation := operation, cause := ProviderFailureCause.unavailable },
      b1.recordFailure now)
  else
    match outcome with
    | RequestOutcome.rateLimitTimeout =>
        (Except.error { operation := operation, cause := ProviderFailureCause.rateLimit },
          b1.recordFailure now)
    | RequestOutcome.requestError msg =>
        (Except.error { operation := operation, cause := ProviderFailureCause.upstream msg },
          b1.recordFailure now)
    | RequestOutcome.success v => (Except.ok v, b1.recordSuccess)

/-! ## Rate limiter (token bucket)
Source: `rate-limiter.ts` (`src/unnamed/part_011`). `tokens` is a float in
the source, modelled as `ℚ`; `maxTokens = config.maxRequests` and
`refillRate = config.maxRequests / config.windowMs`. -/

/-- RateLimiterConfig. -/
structure RateLimiterConfig where
  maxRequests : ℕ
  windowMs : ℚ
deriving DecidableEq, Repr

/-- Mutable state of the RateLimiter class plus its config. -/
structure RateLimiter where
  config : RateLimiterConfig
  tokens : ℚ
  lastRefill : ℚ
deriving DecidableEq, Repr

/-- Derived constant `maxTokens = config.maxRequests`. -/
def RateLimiter.maxTokens (s : RateLimiter) : ℚ := (s.config.maxRequests : ℚ)

/-- Derived constant `refillRate = config.maxRequests / config.windowMs`. -/
def RateLimiter.refillRate (s : RateLimiter) : ℚ :=
  (s.config.maxRequests : ℚ) / s.config.windowMs

/-- The constructor: `tokens = maxTokens`, `lastRefill = Date.now()`. -/
def RateLimiter.create (config : RateLimiterConfig) (now : ℚ) : RateLimiter :=
  { config := config, tokens := (config.maxRequests : ℚ), lastRefill := now }

/-- Private method `refill()`: lazily adds `timePassed * refillRate` tokens,
capped at `maxTokens`, and stamps `lastRefill = now`. -/
def RateLimiter.refill (s : RateLimiter) (now : ℚ) : RateLimiter :=
  { s with tokens := min s.maxTokens (s.tokens + (now - s.lastRefill) * s.refillRate),
           lastRefill := now }

/-- Method `tryAcquire()`: refill, then take one token if at least one is
available. -/
def RateLimiter.tryAcquire (s : RateLimiter) (now : ℚ) : Bool × RateLimiter :=
  let s := s.refill now
  if s.tokens ≥ 1 then (true, { s with tokens := s.tokens - 1 }) else (false, s)

/-- Method `getAvailableTokens()`: refill and report the floor. -/
def RateLimiter.getAvailableTokens (s : RateLimiter) (now : ℚ) : ℤ × RateLimiter :=
  let s := s.refill now
  (⌊s.tokens⌋, s)

/-- Method `reset()`. -/
def RateLimiter.reset (s : RateLimiter) (now : ℚ) : RateLimiter :=
  { s with tokens := (s.config.maxRequests : ℚ), lastRefill := now }

/-- The retry loop inside `acquire(timeoutMs)`: repeated `tryAcquire`
attempts, one per wake-up instant, stopping at the first success or when
the attempt budget (the timeout) is exhausted. The instants of the
attempts are supplied as a list. -/
def RateLimiter.acquireLoop (s : RateLimiter) : List ℚ → RateLimiter
  | [] => s
  | t :: ts =>
      let (ok, s1) := s.tryAcquire t
      if ok then s1 else s1.acquireLoop ts

/-- One observable operation on a rate limiter, tagged with the `Date.now()`
values observed while it runs. `acquire` carries the instants of its
successive `tryAcquire` attempts. -/
inductive RateLimiterOp where
  | tryAcquire (t : ℚ)
  | getAvailableTokens (t : ℚ)
  | reset (t : ℚ)
  | acquire (ts : List ℚ)

/-- The wall-clock instants an operation observes, in order. -/
def RateLimiterOp.times : RateLimiterOp → List ℚ
  | RateLimiterOp.tryAcquire t => [t]
  | RateLimiterOp.getAvailableTokens t => [t]
  | RateLimiterOp.reset t => [t]
  | RateLimiterOp.acquire ts => ts

/-- State effect of one operation. -/
def RateLimiter.step (s : RateLimiter) : RateLimiterOp → RateLimiter
  | RateLimiterOp.tryAcquire t => (s.tryAcquire t).2
  | RateLimiterOp.getAvailableTokens t => (s.getAvailableTokens t).2
  | RateLimiterOp.reset t => s.reset t
  | RateLimiterOp.acquire ts => s.acquireLoop ts

/-- Running a sequence of operations. -/
def RateLimiter.run (s : RateLimiter) (ops : List RateLimiterOp) : RateLimiter :=
  ops.foldl RateLimiter.step s

/-- All instants observed by a sequence of operations, in order. -/
def RateLimiterOp.flatTimes (ops : List RateLimiterOp) : List ℚ :=
  ops.flatMap RateLimiterOp.times

/-- The token-bucket invariant. -/
def RateLimiter.Inv (s : RateLimiter) : Prop :=
  0 ≤ s.tokens ∧ s.tokens ≤ s.maxTokens

/-! ## In-memory cache
Source: `cache.service.ts` (`src/unnamed/part_009`), class
`InMemoryCacheService`, modelled generically in the stored value type.
The `Map` is a function from keys to optional entries. -/

/-- CacheEntry from `cache.service.ts`. -/
structure CacheEntry (α : Type) where
  value : α
  expiresAt : ℚ
  cachedAt : ℚ
deriving DecidableEq, Repr

/-- The backing `Map` of `InMemoryCacheService`. -/
def CacheMap (α : Type) : Type := String → Option (CacheEntry α)

/-- An empty cache. -/
def CacheMap.empty (α : Type) : CacheMap α := fun _ => none

/-- Method `get(key)`: returns `null` on a missing entry; on an expired
entry (`Date.now() > expiresAt`) deletes it and returns `null`; otherwise
returns the stored value. The returned map is the cache state after the
call. -/
def InMemoryCacheService.get {α : Type} (cache : CacheMap α) (key : String) (now : ℚ) :
    Option α × CacheMap α :=
  match cache key with
  | none => (none, cache)
  | some entry =>
      if now > entry.expiresAt then
        (none, fun k => if k = key then none else cache k)
      else
        (some entry.value, cache)

/-- Method `set(key, value, ttlSeconds)`: unconditional overwrite with
`expiresAt = Date.now() + ttlSeconds * 1000`. -/
def InMemoryCacheService.set {α : Type} (cache : CacheMap α) (key : String) (value : α)
    (ttlSeconds : ℚ) (now : ℚ) : CacheMap α :=
  fun k => if k = key then some { value := value, expiresAt := now + ttlSeconds * 1000,
                                  cachedAt := now }
           else cache k

/-! ## Scoreboard orchestrator
Source: `get-scoreboard.use-case.ts` (`src/unnamed/part_012`), class
`GetScoreboardUseCase`. -/

/-- GetScoreboardParams. -/
structure GetScoreboardParams where
  season : ℤ
  week : ℤ
  seasonType : Option String := none
deriving DecidableEq, Repr

/-- Metadata of a ScoreboardResult. -/
structure ScoreboardMetadata where
  season : ℤ
  week : ℤ
  seasonType : String
  cachedAt : Option ℚ
  gameCount : ℕ
  liveGameCount : ℕ
deriving DecidableEq, Repr

/-- ScoreboardResult. -/
structure ScoreboardResult where
  games : List Game
  fromCache : Bool
  metadata : ScoreboardMetadata
deriving DecidableEq, Repr

/-- The result envelope built on the fetch path of
`GetScoreboardUseCase.execute` (lines 65–76): in particular
`liveGameCount = games.filter((g) => g.isLive).length`. -/
def GetScoreboardUseCase.buildResult (params : GetScoreboardParams) (games : List Game)
    (now : ℚ) : ScoreboardResult :=
  { games := games
    fromCache := false
    metadata :=
      { season := params.season
        week := params.week
        seasonType := params.seasonType.getD "regular"
        cachedAt := some now
        gameCount := games.length
        liveGameCount := (games.filter Game.isLive).length } }

/-- Private method `calculateCacheTTL(result)` (TTL in seconds). -/
def GetScoreboardUseCase.calculateCacheTTL (result : ScoreboardResult) : ℕ :=
  if result.metadata.liveGameCount > 0 then 30
  else if result.games.all Game.isCompleted then 3600
  else if result.games.all (fun g => !g.isLive && !g.isCompleted) then 300
  else 60

/-- The scoreboard TTL policy as the spec words it (spec §8, "Scoreboard TTL
policy", read in order as in the §4.5 table): at least one live game → 30;
else all completed → 3600; else all scheduled → 300; else (mixed) → 60.
Stated against the games list itself, not the precomputed metadata count. -/
def scoreboardTTLSpec (games : List Game) : ℕ :=
  if games.any Game.isLive then 30
  else if games.all Game.isCompleted then 3600
  else if games.all (fun g => !g.isLive && !g.isCompleted) then 300
  else 60

/-! ## Schedule orchestrator
Source: `src/api/src/application/use-cases/get-schedule.use-case.ts`,
class `GetScheduleUseCase`. The cache read and the repository fetch are
abstracted as inputs (`cached` is what `cacheService.get` returned,
`repoGames` what `findByWeek`/`findByFilter` returned); the emitted event
names are collected in a list. -/

/-- GetScheduleParams. -/
structure GetScheduleParams where
  season : ℤ
  week : Option ℤ := none
  seasonType : Option String := none
deriving DecidableEq, Repr

/-- Metadata of a ScheduleResult. -/
structure ScheduleMetadata where
  season : ℤ
  week : Option ℤ
  seasonType : String
  cachedAt : Option ℚ
  gameCount : ℕ
  upcomingGameCount : ℕ
deriving DecidableEq, Repr

/-- ScheduleResult. -/
structure ScheduleResult where
  games : List Game
  fromCache : Bool
  metadata : ScheduleMetadata
deriving DecidableEq, Repr

/-- Private method `shouldRefreshCache(cached)` of `GetScheduleUseCase`:
refresh when `cachedAt` is missing or the entry is older than 5 minutes. -/
def GetScheduleUseCase.shouldRefreshCache (cached : ScheduleResult) (now : ℚ) : Bool :=
  match cached.metadata.cachedAt with
  | none => true
  | some t => now - t > 5 * 60 * 1000

/-- The comparator of `scheduledGames.sort((a, b) => a.scheduledAt - b.scheduledAt)`. -/
def scheduledAtLE (a b : Game) : Prop := a.scheduledAt ≤ b.scheduledAt

instance : DecidableRel scheduledAtLE :=
  fun a b => inferInstanceAs (Decidable (a.scheduledAt ≤ b.scheduledAt))

instance : IsTotal Game scheduledAtLE := ⟨fun a b => le_total a.scheduledAt b.scheduledAt⟩

instance : IsTrans Game scheduledAtLE := ⟨fun _ _ _ h h' => le_trans h h'⟩

/-- The miss/stale path of `GetScheduleUseCase.execute` (lines 57–99):
filter the fetched games to the ones neither live nor completed, sort
ascending by `scheduledAt` (a stable sort, modelled by insertion sort) and
build a fresh envelope. -/
def GetScheduleUseCase.fetchPath (params : GetScheduleParams) (repoGames : List Game)
    (now : ℚ) : ScheduleResult × List String :=
  let scheduledGames :=
    (repoGames.filter (fun g => !g.isLive && !g.isCompleted)).insertionSort scheduledAtLE
  ({ games := scheduledGames
     fromCache := false
     metadata :=
       { season := params.season
         week := params.week
         seasonType := params.seasonType.getD "regular"
         cachedAt := some now
         gameCount := scheduledGames.length
         upcomingGameCount := scheduledGames.length } },
   ["schedule.fetched"])

/-- Method `execute(params)` of `GetScheduleUseCase`: cache-hit path when a
cached envelope is present and not stale, otherwise the fetch path.
Returns the envelope and the emitted event names. -/
def GetScheduleUseCase.execute (params : GetScheduleParams) (cached : Option ScheduleResult)
    (repoGames : List Game) (now : ℚ) : ScheduleResult × List String :=
  match cached with
  | some c =>
      if !(GetScheduleUseCase.shouldRefreshCache c now) then
        ({ c with fromCache := true }, ["schedule.cache-hit"])
      else
        GetScheduleUseCase.fetchPath params repoGames now
  | none => GetScheduleUseCase.fetchPath params repoGames now

/-! ## Game-details orchestrator
Source: `src/api/src/application/use-cases/get-game-details.use-case.ts`,
class `GetGameDetailsUseCase`, composed with the in-memory cache service
(the production `ICacheService`): the cache state is threaded through the
call. The repository is abstracted as the value `findById` would return. -/

/-- Metadata of a GameDetailsResult. -/
structure GameDetailsMetadata where
  cachedAt : ℚ
deriving DecidableEq, Repr

/-- GameDetailsResult. -/
structure GameDetailsResult where
  game : Option Game
  fromCache : Bool
  metadata : GameDetailsMetadata
deriving DecidableEq, Repr

/-- Private method `shouldRefreshCache(cached)` of `GetGameDetailsUseCase`. -/
def GetGameDetailsUseCase.shouldRefreshCache (cached : GameDetailsResult) (now : ℚ) : Bool :=
  match cached.game with
  | none => true
  | some game =>
      let cacheAge := now - cached.metadata.cachedAt
      if game.isLive then cacheAge > 15 * 1000
      else if game.isCompleted then cacheAge > 3600 * 1000
      else cacheAge > 5 * 60 * 1000

/-- Private method `calculateCacheTTL(game)` of `GetGameDetailsUseCase`. -/
def GetGameDetailsUseCase.calculateCacheTTL (game : Game) : ℕ :=
  if game.isLive then 15 else if game.isCompleted then 3600 else 300

/-- Private method `buildCacheKey(gameId)`. -/
def GetGameDetailsUseCase.buildCacheKey (gameId : String) : String := "game:" ++ gameId

/-- The miss path of `GetGameDetailsUseCase.execute` (lines 50–75): build
a fresh envelope from `findById`'s result, write it back and emit the
fetched event only when a game was found. -/
def GetGameDetailsUseCase.fetchPath (cache1 : CacheMap GameDetailsResult) (cacheKey : String)
    (findById : Option Game) (now : ℚ) :
    GameDetailsResult × CacheMap GameDetailsResult × List String :=
  let result : GameDetailsResult :=
    { game := findById, fromCache := false, metadata := { cachedAt := now } }
  match findById with
  | some game =>
      (result,
       InMemoryCacheService.set cache1 cacheKey result
         ((GetGameDetailsUseCase.calculateCacheTTL game : ℚ)) now,
       ["game-details.fetched"])
  | none => (result, cache1, [])

/-- Method `execute(params)` of `GetGameDetailsUseCase`: reads the cache
(which may evict an expired entry), takes the hit path only when the
cached envelope exists, its `game` is non-null and it is not stale;
otherwise the miss path. Returns the envelope, the cache state after the
call and the emitted event names. -/
def GetGameDetailsUseCase.execute (cache : CacheMap GameDetailsResult) (gameId : String)
    (findById : Option Game) (now : ℚ) :
    GameDetailsResult × CacheMap GameDetailsResult × List String :=
  let cacheKey := GetGameDetailsUseCase.buildCacheKey gameId
  let (cached, cache1) := InMemoryCacheService.get cache cacheKey now
  match cached with
  | some c =>
      if c.game.isSome && !(GetGameDetailsUseCase.shouldRefreshCache c now) then
        ({ c with fromCache := true }, cache1, ["game-details.cache-hit"])
      else
        GetGameDetailsUseCase.fetchPath cache1 cacheKey findById now
  | none => GetGameDetailsUseCase.fetchPath cache1 cacheKey findById now

/-! ## Event bus
Source: `src/api/src/infrastructure/events/event-bus.ts`, class
`InMemoryEventBus`. Handlers are modelled as functions into `Except`
(a thrown error is `Except.error`); the two handler `Map`s are functions
from event names to handler lists (`[]` for an absent entry, matching a
missing `Map` key). `emit` runs in `Except`: an uncaught handler error
would surface as `Except.error` of the whole call. -/

/-- DomainEvent. -/
structure DomainEvent (T : Type) where
  eventName : String
  occurredAt : ℚ
  data : T

/-- EventHandler: may throw (modelled by `Except.error`). -/
def EventHandler (T E : Type) : Type := DomainEvent T → Except E Unit

/-- The two handler maps of `InMemoryEventBus`. -/
structure InMemoryEventBus (T E : Type) where
  handlers : String → List (EventHandler T E)
  onceHandlers : String → List (EventHandler T E)

/-- The per-handler `try { await handler(event) } catch (error) {
console.error(...) }` in the dispatch loop of `emit`: the handler's error
is caught (and logged), so the dispatch itself returns normally, reporting
the caught error, if any. -/
def InMemoryEventBus.dispatchOne {T E : Type} (h : EventHandler T E) (ev : DomainEvent T) :
    Except E (Option E) :=
  match h ev with
  | Except.ok _ => Except.ok none
  | Except.error e => Except.ok (some e)

/-- Method `emit(eventName, data)`: dispatches to all regular handlers,
then to all once handlers, then clears the once handlers for that event.
Returns the bus state after the call and the list of caught handler
errors (one slot per invoked handler, `none` when it succeeded). -/
def InMemoryEventBus.emit {T E : Type} (bus : InMemoryEventBus T E) (eventName : String)
    (now : ℚ) (data : T) :
    Except E (InMemoryEventBus T E × List (Option E)) := do
  let event : DomainEvent T := { eventName := eventName, occurredAt := now, data := data }
  let regularLog ← (bus.handlers eventName).mapM
    (fun h => InMemoryEventBus.dispatchOne h event)
  let onceLog ← (bus.onceHandlers eventName).mapM
    (fun h => InMemoryEventBus.dispatchOne h event)
  Except.ok
    ({ bus with onceHandlers := fun k => if k = eventName then [] else bus.onceHandlers k },
     regularLog ++ onceLog)

/-! ## Operation sequences on the breaker, and concrete fixtures -/

/-- One recorded request against the circuit breaker: `recordSuccess()` or
`recordFailure()` (the latter tagged with its `Date.now()`). -/
inductive BreakerOp where
  | success
  | failure (t : ℚ)
deriving DecidableEq, Repr

/-- Running a sequence of recorded requests. -/
def CircuitBreaker.runOps (b : CircuitBreaker) (ops : List BreakerOp) : CircuitBreaker :=
  ops.foldl
    (fun b op =>
      match op with
      | BreakerOp.success => b.recordSuccess
      | BreakerOp.failure t => b.recordFailure t)
    b

/-- The breaker configuration of the ESPN provider
(`espn-provider.ts`): `failureThreshold: 50, minimumRequests: 5,
resetTimeout: 60000`. -/
def espnBreakerConfig : CircuitBreakerConfig :=
  { failureThreshold := 50, minimumRequests := 5, resetTimeout := 60000 }

/-- A breaker that is OPEN with its retry window not yet reached at
`Date.now() = 50000` (it opened after 3 failures out of 5 requests). -/
def openBreakerFixture : CircuitBreaker :=
  { config := espnBreakerConfig
    state := CircuitState.OPEN
    failureCount := 3
    successCount := 0
    requestCount := 5
    lastFailureTime := 40000
    nextAttemptTime := 100000 }

/-- A fresh breaker after the request sequence
failure, failure, failure, success, success (3 failures out of 5). -/
def breakerAfterFFFSS : CircuitBreaker :=
  CircuitBreaker.runOps (CircuitBreaker.fresh espnBreakerConfig)
    [BreakerOp.failure 0, BreakerOp.failure 1, BreakerOp.failure 2,
     BreakerOp.success, BreakerOp.success]

/-- A game-details cache holding, under key `game:g1`, an entry that
expired at 100 (storing a result whose `game` is null). -/
def staleDetailsCache : CacheMap GameDetailsResult :=
  fun k =>
    if k = "game:g1" then
      some { value := { game := none, fromCache := false, metadata := { cachedAt := 0 } }
             expiresAt := 100
             cachedAt := 0 }
    else none

/-- A game-details cache holding, under key `game:g2`, a fresh entry
(expiring far in the future) whose stored result has a non-null scheduled
game. -/
def freshDetailsCache : CacheMap GameDetailsResult :=
  fun k =>
    if k = "game:g2" then
      some { value := { game := some { id := "g2", status := GameStatus.SCHEDULED,
                                       scheduledAt := 0 }
                        fromCache := false
                        metadata := { cachedAt := 0 } }
             expiresAt := 1000000
             cachedAt := 0 }
    else none

/-- A cache of naturals holding, under key `k1`, an entry with value 7
that expires at 100. -/
def cacheFixture : CacheMap ℕ :=
  fun k => if k = "k1" then some { value := 7, expiresAt := 100, cachedAt := 0 } else none

/-- Three games: two scheduled (out of `scheduledAt` order) and one final. -/
def scheduleGamesFixture : List Game :=
  [{ id := "a", status := GameStatus.SCHEDULED, scheduledAt := 3 },
   { id := "b", status := GameStatus.FINAL, scheduledAt := 1 },
   { id := "c", status := GameStatus.SCHEDULED, scheduledAt := 2 }]

/-! ## Theorems settling the claims -/

/-- C5: for every scoreboard result built by `GetScoreboardUseCase.execute`,
`calculateCacheTTL` returns 30 when the result contains at least one live
game; else 3600 when every game is completed; else 300 when every game is
neither live nor completed; else (mixed) 60 — the four cases read in
order, as in the spec's §4.5 TTL table. -/
theorem scoreboard_calculateCacheTTL_policy (params : GetScoreboardParams)
    (games : List Game) (now : ℚ) :
    GetScoreboardUseCase.calculateCacheTTL (GetScoreboardUseCase.buildResult params games now)
      = scoreboardTTLSpec games := by
  have key : (0 < (games.filter Game.isLive).length) ↔ (games.any Game.isLive = true) := by
    rw [List.length_pos_iff_exists_mem, List.any_eq_true]
    simp [List.mem_filter]
  simp only [GetScoreboardUseCase.calculateCacheTTL, GetScoreboardUseCase.buildResult,
    scoreboardTTLSpec]
  by_cases h : games.any Game.isLive = true
  · rw [if_pos (key.mpr h), if_pos h]
  · rw [if_neg (fun hh => h (key.mp hh)), if_neg h]

/-- C9: for an empty games list the all-completed check holds vacuously, so
`calculateCacheTTL` returns 3600 (not 300 or 60): an empty week is cached
for an hour. -/
theorem scoreboard_ttl_empty_week (params : GetScoreboardParams) (now : ℚ) :
    GetScoreboardUseCase.calculateCacheTTL (GetScoreboardUseCase.buildResult params [] now)
      = 3600 := by
  simp [GetScoreboardUseCase.calculateCacheTTL, GetScoreboardUseCase.buildResult]

/-- C4: in OPEN with `now ≥ nextAttemptTime`, `allowRequest()` transitions
to HALF_OPEN (resetting `successCount` to 0) and returns true; a
subsequent `recordFailure()` at time `t2` in that HALF_OPEN state
immediately reopens the breaker with `nextAttemptTime = t2 + resetTimeout`. -/
theorem circuitBreaker_half_open_probe (b : CircuitBreaker) (now t2 : ℚ)
    (hst : b.state = CircuitState.OPEN) (ht : now ≥ b.nextAttemptTime) :
    b.allowRequest now = (true, b.transitionToHalfOpen) ∧
    b.transitionToHalfOpen.state = CircuitState.HALF_OPEN ∧
    b.transitionToHalfOpen.successCount = 0 ∧
    (b.transitionToHalfOpen.recordFailure t2).state = CircuitState.OPEN ∧
    (b.transitionToHalfOpen.recordFailure t2).nextAttemptTime = t2 + b.config.resetTimeout := by
  refine ⟨?_, rfl, rfl, ?_, ?_⟩
  · simp [CircuitBreaker.allowRequest, hst, ht]
  · simp [CircuitBreaker.recordFailure, CircuitBreaker.transitionToHalfOpen,
      CircuitBreaker.transitionToOpen]
  · simp [CircuitBreaker.recordFailure, CircuitBreaker.transitionToHalfOpen,
      CircuitBreaker.transitionToOpen]

/-- Witness for `circuitBreaker_half_open_probe` at a concrete breaker. -/
theorem circuitBreaker_half_open_probe_witness :
    openBreakerFixture.allowRequest 100000
        = (true, openBreakerFixture.transitionToHalfOpen) ∧
    (openBreakerFixture.transitionToHalfOpen.recordFailure 100500).state
        = CircuitState.OPEN ∧
    (openBreakerFixture.transitionToHalfOpen.recordFailure 100500).nextAttemptTime
        = 100500 + openBreakerFixture.config.resetTimeout := by
  have h := circuitBreaker_half_open_probe openBreakerFixture 100000 100500 (by decide)
    (by decide)
  exact ⟨h.1, h.2.2.2.1, h.2.2.2.2⟩

/-- C1: evaluation of `executeRequest` at a breaker whose `allowRequest()`
returns false (OPEN, `Date.now() = 50000 < nextAttemptTime = 100000`): the
call does fail fast — the request is never executed and the thrown error
wraps the distinct unavailable cause — but, contrary to the claim, the
breaker's own counters ARE incremented: the `ProviderUnavailableError` is
thrown inside the try block of `executeRequest`, so the catch block calls
`recordFailure()`, bumping `failureCount` from 3 to 4 and `requestCount`
from 5 to 6, and even re-extending `nextAttemptTime` to `50000 + 60000`. -/
theorem executeRequest_breaker_rejection_records_failure :
    (SportsDataProvider.executeRequest (α := Unit) openBreakerFixture 50000 "getGames"
        (RequestOutcome.success ())).1
      = Except.error { operation := "getGames", cause := ProviderFailureCause.unavailable } ∧
    (SportsDataProvider.executeRequest (α := Unit) openBreakerFixture 50000 "getGames"
        (RequestOutcome.success ())).2
      = { config := espnBreakerConfig
          state := CircuitState.OPEN
          failureCount := 4
          successCount := 0
          requestCount := 6
          lastFailureTime := 50000
          nextAttemptTime := 110000 } := by
  have hallow : openBreakerFixture.allowRequest 50000 = (false, openBreakerFixture) := by
    simp [CircuitBreaker.allowRequest, openBreakerFixture]
    norm_num
  have hrec : openBreakerFixture.recordFailure 50000
      = { config := espnBreakerConfig
          state := CircuitState.OPEN
          failureCount := 4
          successCount := 0
          requestCount := 6
          lastFailureTime := 50000
          nextAttemptTime := 110000 } := by
    simp [CircuitBreaker.recordFailure, openBreakerFixture, espnBreakerConfig,
      CircuitBreaker.transitionToOpen]
    norm_num
  constructor
  · simp [SportsDataProvider.executeRequest, hallow]
  · simp [SportsDataProvider.executeRequest, hallow, hrec]

/-- C3 counterexample: with `minimumRequests = 5, failureThreshold = 50`,
the 5-request sequence failure, failure, failure, success, success has 3
failures, yet the breaker stays CLOSED and `allowRequest()` returns true —
`recordSuccess()` in CLOSED resets `failureCount` to 0, so the two
trailing successes erase the three failures before the rate is ever
computed at `requestCount = 5`. -/
theorem circuitBreaker_five_requests_counterexample :
    breakerAfterFFFSS.state = CircuitState.CLOSED ∧
    (breakerAfterFFFSS.allowRequest 5).1 = true ∧
    breakerAfterFFFSS.failureCount = 0 := by
  refine ⟨?_, ?_, ?_⟩ <;> decide

/-- C6: `get` returns the stored value while `now ≤ expiresAt`; when
`now > expiresAt` it returns null and removes exactly that entry; `set`
overwrites unconditionally with `expiresAt = now + ttlSeconds * 1000` and
touches no other key; consequently re-setting a key with a longer TTL
before its expiry keeps the value retrievable past the original expiry
point. -/
theorem inMemoryCache_get_set_contract {α : Type} (cache : CacheMap α) (key : String)
    (now : ℚ) :
    (∀ e : CacheEntry α, cache key = some e → now ≤ e.expiresAt →
      InMemoryCacheService.get cache key now = (some e.value, cache)) ∧
    (∀ e : CacheEntry α, cache key = some e → now > e.expiresAt →
      (InMemoryCacheService.get cache key now).1 = none ∧
      (InMemoryCacheService.get cache key now).2 key = none ∧
      ∀ k, k ≠ key → (InMemoryCacheService.get cache key now).2 k = cache k) ∧
    (∀ (value : α) (ttlSeconds : ℚ),
      InMemoryCacheService.set cache key value ttlSeconds now key
        = some { value := value, expiresAt := now + ttlSeconds * 1000, cachedAt := now } ∧
      ∀ k, k ≠ key → InMemoryCacheService.set cache key value ttlSeconds now k = cache k) ∧
    (∀ (v1 v2 : α) (ttl1 ttl2 t0 t1 t2 : ℚ), t0 ≤ t1 → t1 ≤ t0 + ttl1 * 1000 →
      t0 + ttl1 * 1000 < t2 → t2 ≤ t1 + ttl2 * 1000 →
      (InMemoryCacheService.get
        (InMemoryCacheService.set (InMemoryCacheService.set cache key v1 ttl1 t0)
          key v2 ttl2 t1) key t2).1 = some v2) := by
  refine ⟨?_, ?_, ?_, ?_⟩
  · intro e he hle
    simp [InMemoryCacheService.get, he, not_lt.mpr hle]
  · intro e he hgt
    refine ⟨?_, ?_, ?_⟩
    · simp [InMemoryCacheService.get, he, hgt]
    · simp [InMemoryCacheService.get, he, hgt]
    · intro k hk
      simp [InMemoryCacheService.get, he, hgt, hk]
  · intro value ttlSeconds
    constructor
    · simp [InMemoryCacheService.set]
    · intro k hk
      simp [InMemoryCacheService.set, hk]
  · intro v1 v2 ttl1 ttl2 t0 t1 t2 h01 h1e h2a h2b
    have hkey : InMemoryCacheService.set (InMemoryCacheService.set cache key v1 ttl1 t0)
        key v2 ttl2 t1 key
        = some { value := v2, expiresAt := t1 + ttl2 * 1000, cachedAt := t1 } := by
      simp [InMemoryCacheService.set]
    simp [InMemoryCacheService.get, hkey, not_lt.mpr h2b]

/-- Witness for `inMemoryCache_get_set_contract` at concrete inputs: a
fresh read at 50, an expired read at 150, an overwrite, and the
short-TTL-then-long-TTL scenario (entry set at 0 with TTL 1s, re-set at
500 with TTL 2s, still readable at 1500 > 1000). -/
theorem inMemoryCache_get_set_contract_witness :
    InMemoryCacheService.get cacheFixture "k1" 50 = (some 7, cacheFixture) ∧
    (InMemoryCacheService.get cacheFixture "k1" 150).1 = none ∧
    (InMemoryCacheService.get cacheFixture "k1" 150).2 "k1" = none ∧
    InMemoryCacheService.set cacheFixture "k1" 9 3 200 "k1"
      = some { value := 9, expiresAt := 200 + 3 * 1000, cachedAt := 200 } ∧
    (InMemoryCacheService.get
      (InMemoryCacheService.set (InMemoryCacheService.set (CacheMap.empty ℕ) "k1" 1 1 0)
        "k1" 2 2 500) "k1" 1500).1 = some 2 := by
  have h50 := inMemoryCache_get_set_contract cacheFixture "k1" 50
  have h150 := inMemoryCache_get_set_contract cacheFixture "k1" 150
  have h200 := inMemoryCache_get_set_contract cacheFixture "k1" 200
  have h0 := inMemoryCache_get_set_contract (CacheMap.empty ℕ) "k1" 0
  refine ⟨h50.1 { value := 7, expiresAt := 100, cachedAt := 0 } rfl (by norm_num),
    ?_, ?_, (h200.2.2.1 9 3).1,
    h0.2.2.2 1 2 1 2 0 500 1500 (by norm_num) (by norm_num) (by norm_num) (by norm_num)⟩
  · exact (h150.2.1 { value := 7, expiresAt := 100, cachedAt := 0 } rfl (by norm_num)).1
  · exact (h150.2.1 { value := 7, expiresAt := 100, cachedAt := 0 } rfl (by norm_num)).2.1

/-- Binding a ready `Except.ok` value reduces to the continuation. -/
theorem except_ok_bind {E α β : Type} (a : α) (f : α → Except E β) :
    (Except.ok a >>= f : Except E β) = f a := rfl

/-- Dispatching a list of handlers never produces an error (each handler
runs under its own try/catch inside the loop), and yields one log slot per
handler. -/
theorem mapM_dispatchOne_ok {T E : Type} (ev : DomainEvent T) :
    ∀ hs : List (EventHandler T E), ∃ log : List (Option E),
      hs.mapM (fun h => InMemoryEventBus.dispatchOne h ev) = Except.ok log ∧
      log.length = hs.length := by
  intro hs
  induction hs with
  | nil => exact ⟨[], rfl, rfl⟩
  | cons h t ih =>
    obtain ⟨log, hEq, hLen⟩ := ih
    cases hh : h ev with
    | ok u =>
        refine ⟨none :: log, ?_, by simp [hLen]⟩
        rw [List.mapM_cons]
        simp only [hEq]
        simp [InMemoryEventBus.dispatchOne, hh]
        rfl
    | error e =>
        refine ⟨some e :: log, ?_, by simp [hLen]⟩
        rw [List.mapM_cons]
        simp only [hEq]
        simp [InMemoryEventBus.dispatchOne, hh]
        rfl

/-- C8: `emit` never propagates a handler error: for every set of
registered handlers (regular and once) it resolves normally
(`Except.ok`), invokes every handler (one log slot per registered
handler, so an erroring handler does not stop the remaining ones), keeps
the regular handlers and clears exactly the once handlers of the emitted
event. -/
theorem eventBus_emit_isolates_handler_errors {T E : Type} (bus : InMemoryEventBus T E)
    (eventName : String) (now : ℚ) (data : T) :
    ∃ (bus2 : InMemoryEventBus T E) (log : List (Option E)),
      bus.emit eventName now data = Except.ok (bus2, log) ∧
      log.length = (bus.handlers eventName).length + (bus.onceHandlers eventName).length ∧
      bus2.handlers = bus.handlers ∧
      bus2.onceHandlers = fun k => if k = eventName then [] else bus.onceHandlers k := by
  obtain ⟨rlog, hr, hrl⟩ :=
    mapM_dispatchOne_ok { eventName := eventName, occurredAt := now, data := data }
      (bus.handlers eventName)
  obtain ⟨olog, ho, hol⟩ :=
    mapM_dispatchOne_ok { eventName := eventName, occurredAt := now, data := data }
      (bus.onceHandlers eventName)
  refine ⟨{ bus with onceHandlers := fun k => if k = eventName then []
              else bus.onceHandlers k },
    rlog ++ olog, ?_, by simp [hrl, hol], rfl, rfl⟩
  unfold InMemoryEventBus.emit
  simp only [hr, ho, except_ok_bind]

/-- C7: on a cache miss or a stale cached envelope,
`GetScheduleUseCase.execute` returns an envelope whose games are exactly
(as a multiset) the fetched games that are neither live nor completed,
sorted ascending by `scheduledAt`, with `fromCache = false`, a fresh
`cachedAt = now`, and only the fetched event emitted. -/
theorem schedule_execute_fetch_envelope (params : GetScheduleParams)
    (cached : Option ScheduleResult) (repoGames : List Game) (now : ℚ)
    (h : cached = none
       ∨ ∃ c, cached = some c ∧ GetScheduleUseCase.shouldRefreshCache c now = true) :
    List.Perm (GetScheduleUseCase.execute params cached repoGames now).1.games
        (repoGames.filter (fun g => !g.isLive && !g.isCompleted)) ∧
    List.Sorted scheduledAtLE (GetScheduleUseCase.execute params cached repoGames now).1.games ∧
    (GetScheduleUseCase.execute params cached repoGames now).1.fromCache = false ∧
    (GetScheduleUseCase.execute params cached repoGames now).1.metadata.cachedAt = some now ∧
    (GetScheduleUseCase.execute params cached repoGames now).2 = ["schedule.fetched"] := by
  have hexec : GetScheduleUseCase.execute params cached repoGames now
      = GetScheduleUseCase.fetchPath params repoGames now := by
    rcases h with rfl | ⟨c, rfl, hc⟩
    · rfl
    · simp [GetScheduleUseCase.execute, hc]
  rw [hexec]
  refine ⟨?_, ?_, rfl, rfl, rfl⟩
  · simpa [GetScheduleUseCase.fetchPath] using
      List.perm_insertionSort scheduledAtLE
        (repoGames.filter (fun g => !g.isLive && !g.isCompleted))
  · simpa [GetScheduleUseCase.fetchPath] using
      List.sorted_insertionSort scheduledAtLE
        (repoGames.filter (fun g => !g.isLive && !g.isCompleted))

/-- Witness for `schedule_execute_fetch_envelope`: a cache miss over three
concrete games (two scheduled out of order, one final). -/
theorem schedule_execute_fetch_envelope_witness :
    List.Perm (GetScheduleUseCase.execute { season := 2025 } none scheduleGamesFixture 99).1.games
        (scheduleGamesFixture.filter (fun g => !g.isLive && !g.isCompleted)) ∧
    List.Sorted scheduledAtLE
        (GetScheduleUseCase.execute { season := 2025 } none scheduleGamesFixture 99).1.games ∧
    (GetScheduleUseCase.execute { season := 2025 } none scheduleGamesFixture 99).1.fromCache
        = false ∧
    (GetScheduleUseCase.execute { season := 2025 } none scheduleGamesFixture 99).1.metadata.cachedAt
        = some 99 ∧
    (GetScheduleUseCase.execute { season := 2025 } none scheduleGamesFixture 99).2
        = ["schedule.fetched"] :=
  schedule_execute_fetch_envelope { season := 2025 } none scheduleGamesFixture 99 (Or.inl rfl)

/-- The refill rate is non-negative when the window is positive. -/
theorem RateLimiter.refillRate_nonneg (s : RateLimiter) (hw : 0 < s.config.windowMs) :
    0 ≤ s.refillRate :=
  div_nonneg (Nat.cast_nonneg _) hw.le

/-- Lazy refill preserves the token-bucket invariant under a monotone
clock, and stamps `lastRefill = now`. -/
theorem RateLimiter.refill_inv (s : RateLimiter) (now : ℚ) (hw : 0 < s.config.windowMs)
    (hInv : s.Inv) (hle : s.lastRefill ≤ now) :
    (s.refill now).Inv ∧ (s.refill now).lastRefill = now := by
  have hmul : 0 ≤ (now - s.lastRefill) * s.refillRate :=
    mul_nonneg (by linarith) (s.refillRate_nonneg hw)
  refine ⟨⟨?_, ?_⟩, rfl⟩
  · show 0 ≤ min s.maxTokens (s.tokens + (now - s.lastRefill) * s.refillRate)
    exact le_min (Nat.cast_nonneg _) (by linarith [hInv.1])
  · show min s.maxTokens (s.tokens + (now - s.lastRefill) * s.refillRate) ≤ s.maxTokens
    exact min_le_left _ _

/-- The state after `tryAcquire`: the refilled state, minus one token when
at least one was available. -/
theorem RateLimiter.tryAcquire_state (s : RateLimiter) (now : ℚ) :
    (s.tryAcquire now).2
      = if (s.refill now).tokens ≥ 1
        then { s.refill now with tokens := (s.refill now).tokens - 1 }
        else s.refill now := by
  simp only [RateLimiter.tryAcquire]
  split
  · rfl
  · rfl

/-- `tryAcquire` preserves the invariant under a monotone clock. -/
theorem RateLimiter.tryAcquire_inv (s : RateLimiter) (now : ℚ) (hw : 0 < s.config.windowMs)
    (hInv : s.Inv) (hle : s.lastRefill ≤ now) :
    (s.tryAcquire now).2.Inv ∧ (s.tryAcquire now).2.lastRefill = now ∧
      (s.tryAcquire now).2.config = s.config := by
  obtain ⟨⟨h0, h1⟩, hlr⟩ := s.refill_inv now hw hInv hle
  rw [RateLimiter.tryAcquire_state]
  split
  · next hc =>
      refine ⟨⟨?_, ?_⟩, hlr, rfl⟩
      · show 0 ≤ (s.refill now).tokens - 1
        linarith
      · show (s.refill now).tokens - 1 ≤ (s.refill now).maxTokens
        linarith
  · exact ⟨⟨h0, h1⟩, hlr, rfl⟩

/-- The state after `getAvailableTokens` is the refilled state. -/
theorem RateLimiter.getAvailableTokens_state (s : RateLimiter) (now : ℚ) :
    (s.getAvailableTokens now).2 = s.refill now := rfl

/-- `acquireLoop` (the retry loop of `acquire`) preserves the invariant
when its attempt instants are in order and at or after `lastRefill`. -/
theorem RateLimiter.acquireLoop_inv :
    ∀ (ts : List ℚ) (s : RateLimiter), 0 < s.config.windowMs → s.Inv →
      List.Pairwise (· ≤ ·) (s.lastRefill :: ts) →
      (s.acquireLoop ts).Inv ∧ (s.acquireLoop ts).config = s.config ∧
        ((s.acquireLoop ts).lastRefill = s.lastRefill ∨ (s.acquireLoop ts).lastRefill ∈ ts) := by
  intro ts
  induction ts with
  | nil => exact fun s _ hInv _ => ⟨hInv, rfl, Or.inl rfl⟩
  | cons t ts ih =>
    intro s hw hInv hp
    rw [List.pairwise_cons] at hp
    obtain ⟨hhead, hp'⟩ := hp
    have hle : s.lastRefill ≤ t := hhead t (List.mem_cons_self _ _)
    have htr := s.tryAcquire_inv t hw hInv hle
    unfold RateLimiter.acquireLoop
    rcases hta : s.tryAcquire t with ⟨ok, s1⟩
    rw [hta] at htr
    simp only
    cases ok with
    | true =>
        simp only [if_pos]
        exact ⟨htr.1, htr.2.2, Or.inr (by rw [htr.2.1]; exact List.mem_cons_self _ _)⟩
    | false =>
        simp only [Bool.false_eq_true, if_neg, not_false_iff]
        have hw1 : 0 < s1.config.windowMs := by rw [htr.2.2]; exact hw
        have hp1 : List.Pairwise (· ≤ ·) (s1.lastRefill :: ts) := by
          rw [htr.2.1]; exact hp'
        obtain ⟨hInv2, hcfg2, hlr2⟩ := ih s1 hw1 htr.1 hp1
        refine ⟨hInv2, by rw [hcfg2, htr.2.2], ?_⟩
        rcases hlr2 with h | h
        · exact Or.inr (by rw [h, htr.2.1]; exact List.mem_cons_self _ _)
        · exact Or.inr (List.mem_cons_of_mem _ h)

/-- A single rate-limiter operation preserves the invariant and the
config, and leaves `lastRefill` either unchanged or at one of the
operation's observed instants. -/
theorem RateLimiter.step_inv (op : RateLimiterOp) (s : RateLimiter)
    (hw : 0 < s.config.windowMs) (hInv : s.Inv)
    (hp : List.Pairwise (· ≤ ·) (s.lastRefill :: op.times)) :
    (s.step op).Inv ∧ (s.step op).config = s.config ∧
      ((s.step op).lastRefill = s.lastRefill ∨ (s.step op).lastRefill ∈ op.times) := by
  cases op with
  | tryAcquire t =>
      have hle : s.lastRefill ≤ t :=
        (List.pairwise_cons.mp hp).1 t (List.mem_cons_self _ _)
      have h := s.tryAcquire_inv t hw hInv hle
      simp only [RateLimiter.step, RateLimiterOp.times]
      exact ⟨h.1, h.2.2, Or.inr (by rw [h.2.1]; exact List.mem_cons_self _ _)⟩
  | getAvailableTokens t =>
      have hle : s.lastRefill ≤ t :=
        (List.pairwise_cons.mp hp).1 t (List.mem_cons_self _ _)
      have h := s.refill_inv t hw hInv hle
      simp only [RateLimiter.step, RateLimiterOp.times,
        RateLimiter.getAvailableTokens_state]
      exact ⟨h.1, rfl, Or.inr (by rw [h.2]; exact List.mem_cons_self _ _)⟩
  | reset t =>
      simp only [RateLimiter.step, RateLimiterOp.times]
      exact ⟨⟨Nat.cast_nonneg _, le_refl _⟩, rfl, Or.inr (List.mem_cons_self _ _)⟩
  | acquire ts =>
      simp only [RateLimiter.step, RateLimiterOp.times] at hp ⊢
      exact s.acquireLoop_inv ts hw hInv hp

/-- Running any operation sequence with in-order instants preserves the
invariant and the config. -/
theorem RateLimiter.run_inv :
    ∀ (ops : List RateLimiterOp) (s : RateLimiter), 0 < s.config.windowMs → s.Inv →
      List.Pairwise (· ≤ ·) (s.lastRefill :: RateLimiterOp.flatTimes ops) →
      (s.run ops).Inv ∧ (s.run ops).config = s.config := by
  intro ops
  induction ops with
  | nil => exact fun s _ hInv _ => ⟨hInv, rfl⟩
  | cons op ops ih =>
    intro s hw hInv hp
    have hflat : RateLimiterOp.flatTimes (op :: ops)
        = op.times ++ RateLimiterOp.flatTimes ops := rfl
    rw [hflat, List.pairwise_cons] at hp
    obtain ⟨hhead, htail⟩ := hp
    rw [List.pairwise_append] at htail
    obtain ⟨hA, hB, hAB⟩ := htail
    have hpOp : List.Pairwise (· ≤ ·) (s.lastRefill :: op.times) :=
      List.pairwise_cons.mpr ⟨fun y hy => hhead y (List.mem_append_left _ hy), hA⟩
    obtain ⟨hInv1, hcfg1, hlr1⟩ := RateLimiter.step_inv op s hw hInv hpOp
    have hw1 : 0 < (s.step op).config.windowMs := by rw [hcfg1]; exact hw
    have hp1 : List.Pairwise (· ≤ ·)
        ((s.step op).lastRefill :: RateLimiterOp.flatTimes ops) := by
      rcases hlr1 with h | h
      · rw [h]
        exact List.pairwise_cons.mpr
          ⟨fun y hy => hhead y (List.mem_append_right _ hy), hB⟩
      · exact List.pairwise_cons.mpr ⟨fun y hy => hAB _ h y hy, hB⟩
    have hrun : s.run (op :: ops) = (s.step op).run ops := rfl
    rw [hrun]
    obtain ⟨hI, hC⟩ := ih (s.step op) hw1 hInv1 hp1
    exact ⟨hI, by rw [hC, hcfg1]⟩

/-- C2: starting from a freshly constructed limiter, for every sequence of
operations (`tryAcquire`, `acquire`, `getAvailableTokens`, `reset`) whose
observed `Date.now()` instants are monotone, the bound
`0 ≤ tokens ≤ maxTokens` holds after the sequence (and hence after every
operation, since every prefix of a monotone trace is monotone). -/
theorem rateLimiter_token_bucket_invariant (config : RateLimiterConfig)
    (hw : 0 < config.windowMs) (t0 : ℚ) (ops : List RateLimiterOp)
    (hmono : List.Pairwise (· ≤ ·) (t0 :: RateLimiterOp.flatTimes ops)) :
    0 ≤ ((RateLimiter.create config t0).run ops).tokens ∧
      ((RateLimiter.create config t0).run ops).tokens ≤ (config.maxRequests : ℚ) := by
  have hInv0 : (RateLimiter.create config t0).Inv :=
    ⟨Nat.cast_nonneg _, le_refl _⟩
  obtain ⟨hI, hC⟩ := RateLimiter.run_inv ops (RateLimiter.create config t0) hw hInv0 hmono
  refine ⟨hI.1, ?_⟩
  have h2 := hI.2
  rw [RateLimiter.maxTokens, hC] at h2
  exact h2

/-- Witness for `rateLimiter_token_bucket_invariant`: two tokens per
second, a trace that drains the bucket, retries inside `acquire`, resets
and reads. -/
theorem rateLimiter_token_bucket_invariant_witness :
    0 ≤ ((RateLimiter.create { maxRequests := 2, windowMs := 1000 } 0).run
          [RateLimiterOp.tryAcquire 5, RateLimiterOp.tryAcquire 6,
           RateLimiterOp.acquire [7, 200, 600], RateLimiterOp.reset 700,
           RateLimiterOp.getAvailableTokens 800, RateLimiterOp.tryAcquire 900]).tokens ∧
      ((RateLimiter.create { maxRequests := 2, windowMs := 1000 } 0).run
          [RateLimiterOp.tryAcquire 5, RateLimiterOp.tryAcquire 6,
           RateLimiterOp.acquire [7, 200, 600], RateLimiterOp.reset 700,
           RateLimiterOp.getAvailableTokens 800, RateLimiterOp.tryAcquire 900]).tokens
        ≤ ((2 : ℕ) : ℚ) :=
  rateLimiter_token_bucket_invariant { maxRequests := 2, windowMs := 1000 } (by norm_num) 0
    [RateLimiterOp.tryAcquire 5, RateLimiterOp.tryAcquire 6,
     RateLimiterOp.acquire [7, 200, 600], RateLimiterOp.reset 700,
     RateLimiterOp.getAvailableTokens 800, RateLimiterOp.tryAcquire 900]
    (by norm_num [RateLimiterOp.flatTimes, RateLimiterOp.times])

/-- Breaking a request sequence into two runs. -/
theorem CircuitBreaker.runOps_append (b : CircuitBreaker) (l1 l2 : List BreakerOp) :
    b.runOps (l1 ++ l2) = (b.runOps l1).runOps l2 :=
  List.foldl_append _ _ _ _

/-- Peeling one request off a run. -/
theorem CircuitBreaker.runOps_cons (b : CircuitBreaker) (op : BreakerOp)
    (ops : List BreakerOp) :
    b.runOps (op :: ops)
      = (match op with
         | BreakerOp.success => b.recordSuccess
         | BreakerOp.failure t => b.recordFailure t).runOps ops := rfl

/-- In CLOSED with all other counters zero, a streak of `recordSuccess()`
calls only bumps `requestCount` (each one re-zeroes `failureCount`). -/
theorem CircuitBreaker.runOps_replicate_success (cfg : CircuitBreakerConfig) (j k : ℕ) :
    CircuitBreaker.runOps { config := cfg, requestCount := j }
        (List.replicate k BreakerOp.success)
      = { config := cfg, requestCount := j + k } := by
  induction k generalizing j with
  | zero => simp [CircuitBreaker.runOps]
  | succ k ih =>
    rw [List.replicate_succ, CircuitBreaker.runOps_cons]
    have h1 : CircuitBreaker.recordSuccess { config := cfg, requestCount := j }
        = { config := cfg, requestCount := j + 1 } := by
      simp [CircuitBreaker.recordSuccess]
    show (CircuitBreaker.recordSuccess { config := cfg, requestCount := j }).runOps
        (List.replicate k BreakerOp.success) = _
    rw [h1, ih]
    have harith : j + 1 + k = j + (k + 1) := by omega
    rw [harith]

/-- While `requestCount` stays below `minimumRequests = 5`, each
`recordFailure()` in CLOSED just bumps both counters. -/
theorem CircuitBreaker.runOps_failures_below_min (cfg : CircuitBreakerConfig)
    (hmin : cfg.minimumRequests = 5) :
    ∀ (ts : List ℚ) (f r : ℕ) (lf : ℚ), r + ts.length < 5 →
      ∃ lf2 : ℚ,
        CircuitBreaker.runOps
            { config := cfg, failureCount := f, requestCount := r, lastFailureTime := lf }
            (ts.map BreakerOp.failure)
          = { config := cfg, failureCount := f + ts.length, requestCount := r + ts.length,
              lastFailureTime := lf2 } := by
  intro ts
  induction ts with
  | nil =>
    intro f r lf _
    exact ⟨lf, by simp [CircuitBreaker.runOps]⟩
  | cons t ts ih =>
    intro f r lf h
    simp only [List.length_cons] at h
    have hrec : CircuitBreaker.recordFailure
        { config := cfg, failureCount := f, requestCount := r, lastFailureTime := lf } t
        = { config := cfg, failureCount := f + 1, requestCount := r + 1,
            lastFailureTime := t } := by
      simp only [CircuitBreaker.recordFailure]
      rw [if_neg (by simp)]
      rw [if_neg]
      show ¬(r + 1 ≥ cfg.minimumRequests)
      rw [hmin]
      omega
    rw [List.map_cons, CircuitBreaker.runOps_cons]
    simp only [List.length_cons]
    show ∃ lf2, (CircuitBreaker.recordFailure
        { config := cfg, failureCount := f, requestCount := r, lastFailureTime := lf } t).runOps
        (ts.map BreakerOp.failure)
      = { config := cfg, failureCount := f + (ts.length + 1),
          requestCount := r + (ts.length + 1), lastFailureTime := lf2 }
    rw [hrec]
    obtain ⟨lf2, hEq⟩ := ih (f + 1) (r + 1) t (by omega)
    have e1 : f + 1 + ts.length = f + (ts.length + 1) := by omega
    have e2 : r + 1 + ts.length = r + (ts.length + 1) := by omega
    rw [e1, e2] at hEq
    exact ⟨lf2, hEq⟩

/-- C3 (amended): with `minimumRequests = 5, failureThreshold = 50`, for
every sequence of 5 recorded requests in which all successes precede the
failures and the failures number at least 3 (`k ≤ 2` successes followed by
`5 - k` failures), the breaker is OPEN afterwards with
`nextAttemptTime = tLast + resetTimeout` (`tLast` the instant of the last
failure), and `allowRequest()` returns false, without mutating the
breaker, at every instant `t < tLast + resetTimeout`. -/
theorem circuitBreaker_opens_after_trailing_failures (rt : ℚ) (k : ℕ) (hk : k ≤ 2)
    (fts : List ℚ) (hf : fts.length = 4 - k) (tLast t : ℚ) (ht : t < tLast + rt) :
    (CircuitBreaker.runOps
        (CircuitBreaker.fresh { failureThreshold := 50, minimumRequests := 5, resetTimeout := rt })
        (List.replicate k BreakerOp.success ++ fts.map BreakerOp.failure
          ++ [BreakerOp.failure tLast])).state = CircuitState.OPEN ∧
    (CircuitBreaker.runOps
        (CircuitBreaker.fresh { failureThreshold := 50, minimumRequests := 5, resetTimeout := rt })
        (List.replicate k BreakerOp.success ++ fts.map BreakerOp.failure
          ++ [BreakerOp.failure tLast])).nextAttemptTime = tLast + rt ∧
    (CircuitBreaker.runOps
        (CircuitBreaker.fresh { failureThreshold := 50, minimumRequests := 5, resetTimeout := rt })
        (List.replicate k BreakerOp.success ++ fts.map BreakerOp.failure
          ++ [BreakerOp.failure tLast])).allowRequest t
      = (false,
         CircuitBreaker.runOps
           (CircuitBreaker.fresh { failureThreshold := 50, minimumRequests := 5, resetTimeout := rt })
           (List.replicate k BreakerOp.success ++ fts.map BreakerOp.failure
             ++ [BreakerOp.failure tLast])) := by
  rw [CircuitBreaker.runOps_append, CircuitBreaker.runOps_append]
  have h1 : (CircuitBreaker.fresh
        { failureThreshold := 50, minimumRequests := 5, resetTimeout := rt }).runOps
        (List.replicate k BreakerOp.success)
      = { config := { failureThreshold := 50, minimumRequests := 5, resetTimeout := rt },
          requestCount := k } := by
    have h := CircuitBreaker.runOps_replicate_success
      { failureThreshold := 50, minimumRequests := 5, resetTimeout := rt } 0 k
    simpa [CircuitBreaker.fresh] using h
  rw [h1]
  obtain ⟨lf2, h2⟩ := CircuitBreaker.runOps_failures_below_min
    { failureThreshold := 50, minimumRequests := 5, resetTimeout := rt } rfl fts 0 k 0
    (by rw [hf]; omega)
  rw [show (k : ℕ) + fts.length = 4 by rw [hf]; omega] at h2
  rw [show (0 : ℕ) + fts.length = 4 - k by rw [hf]; omega] at h2
  rw [h2]
  have hrate : ((((4 - k + 1 : ℕ) : ℚ)) / ((5 : ℕ) : ℚ)) * 100 ≥ 50 := by
    have h3 : (3 : ℚ) ≤ ((4 - k + 1 : ℕ) : ℚ) := by
      have : (3 : ℕ) ≤ 4 - k + 1 := by omega
      exact_mod_cast this
    have c5 : ((5 : ℕ) : ℚ) = 5 := by norm_num
    rw [c5]
    have hring : ((4 - k + 1 : ℕ) : ℚ) / 5 * 100 = 20 * ((4 - k + 1 : ℕ) : ℚ) := by ring
    rw [ge_iff_le, hring]
    linarith
  have hrec : CircuitBreaker.recordFailure
      { config := { failureThreshold := 50, minimumRequests := 5, resetTimeout := rt },
        failureCount := 4 - k, requestCount := 4, lastFailureTime := lf2 } tLast
      = { config := { failureThreshold := 50, minimumRequests := 5, resetTimeout := rt },
          state := CircuitState.OPEN, failureCount := 4 - k + 1, successCount := 0,
          requestCount := 5, lastFailureTime := tLast, nextAttemptTime := tLast + rt } := by
    simp only [CircuitBreaker.recordFailure]
    rw [if_neg (by simp)]
    rw [if_pos (by show 4 + 1 ≥ 5; omega)]
    rw [if_pos hrate]
    rfl
  have hsingle : ∀ b : CircuitBreaker,
      b.runOps [BreakerOp.failure tLast] = b.recordFailure tLast := fun b => rfl
  rw [hsingle, hrec]
  refine ⟨rfl, rfl, ?_⟩
  show CircuitBreaker.allowRequest _ t = _
  simp only [CircuitBreaker.allowRequest]
  rw [if_neg]
  show ¬(t ≥ tLast + rt)
  exact not_le.mpr ht

/-- Witness for `circuitBreaker_opens_after_trailing_failures`: 2
successes then 3 failures (the last at 30), `resetTimeout = 60000`,
probed at 100. -/
theorem circuitBreaker_opens_after_trailing_failures_witness :
    (CircuitBreaker.runOps
        (CircuitBreaker.fresh { failureThreshold := 50, minimumRequests := 5, resetTimeout := 60000 })
        (List.replicate 2 BreakerOp.success ++ [(10 : ℚ), 20].map BreakerOp.failure
          ++ [BreakerOp.failure 30])).state = CircuitState.OPEN ∧
    (CircuitBreaker.runOps
        (CircuitBreaker.fresh { failureThreshold := 50, minimumRequests := 5, resetTimeout := 60000 })
        (List.replicate 2 BreakerOp.success ++ [(10 : ℚ), 20].map BreakerOp.failure
          ++ [BreakerOp.failure 30])).nextAttemptTime = 30 + 60000 ∧
    (CircuitBreaker.runOps
        (CircuitBreaker.fresh { failureThreshold := 50, minimumRequests := 5, resetTimeout := 60000 })
        (List.replicate 2 BreakerOp.success ++ [(10 : ℚ), 20].map BreakerOp.failure
          ++ [BreakerOp.failure 30])).allowRequest 100
      = (false,
         CircuitBreaker.runOps
           (CircuitBreaker.fresh { failureThreshold := 50, minimumRequests := 5, resetTimeout := 60000 })
           (List.replicate 2 BreakerOp.success ++ [(10 : ℚ), 20].map BreakerOp.failure
             ++ [BreakerOp.failure 30])) :=
  circuitBreaker_opens_after_trailing_failures 60000 2 (by norm_num) [10, 20] (by norm_num)
    30 100 (by norm_num)

/-- C10 counterexample: with an expired entry under `game:g1`
(`expiresAt = 100 < now = 200`) and `findById` returning null, the call
`GetGameDetailsUseCase.execute` does change the cache state: the read-time
expiry check inside `cacheService.get` evicts the entry (it held
`some ...` before the call and `none` after), so the claim's "the cache
state is unchanged by the call" is false as stated. -/
theorem gameDetails_cache_changed_counterexample :
    (GetGameDetailsUseCase.execute staleDetailsCache "g1" none 200).2.1 "game:g1"
      ≠ staleDetailsCache "game:g1" := by
  decide

/-- C10 (amended): when `findById` returns null and the cache read does
not produce a usable hit (entry absent, holding a null game, or stale),
`execute` returns `{ game: null, fromCache: false }` with a fresh
`cachedAt`, writes nothing and emits no event: the final cache state is
exactly what the read produced — every key is unchanged except that the
read-time expiry check may have removed an already-expired entry under
the request's own key. Moreover (last conjunct) a cached entry whose
`game` is null is never returned as a cache hit: `fromCache = true`
implies the returned game is non-null. -/
theorem gameDetails_notFound_writes_nothing
    (cache : CacheMap GameDetailsResult) (gameId : String) (now : ℚ)
    (h : (InMemoryCacheService.get cache (GetGameDetailsUseCase.buildCacheKey gameId) now).1
          = none
       ∨ ∃ c, (InMemoryCacheService.get cache (GetGameDetailsUseCase.buildCacheKey gameId)
            now).1 = some c
           ∧ (c.game.isSome && !(GetGameDetailsUseCase.shouldRefreshCache c now)) = false) :
    (GetGameDetailsUseCase.execute cache gameId none now).1
        = { game := none, fromCache := false, metadata := { cachedAt := now } } ∧
    (GetGameDetailsUseCase.execute cache gameId none now).2.1
        = (InMemoryCacheService.get cache (GetGameDetailsUseCase.buildCacheKey gameId) now).2 ∧
    (∀ k2, (GetGameDetailsUseCase.execute cache gameId none now).2.1 k2 = cache k2
        ∨ (k2 = GetGameDetailsUseCase.buildCacheKey gameId
           ∧ (GetGameDetailsUseCase.execute cache gameId none now).2.1 k2 = none
           ∧ ∃ e, cache k2 = some e ∧ now > e.expiresAt)) ∧
    (GetGameDetailsUseCase.execute cache gameId none now).2.2 = [] ∧
    (∀ (cache2 : CacheMap GameDetailsResult) (id2 : String) (fb : Option Game) (t : ℚ),
       (GetGameDetailsUseCase.execute cache2 id2 fb t).1.fromCache = true →
       (GetGameDetailsUseCase.execute cache2 id2 fb t).1.game.isSome = true) := by
  rcases hget : InMemoryCacheService.get cache (GetGameDetailsUseCase.buildCacheKey gameId) now
    with ⟨cached, cache1⟩
  have hsnd : (InMemoryCacheService.get cache (GetGameDetailsUseCase.buildCacheKey gameId)
      now).2 = cache1 := by rw [hget]
  have hexec : GetGameDetailsUseCase.execute cache gameId none now
      = ({ game := none, fromCache := false, metadata := { cachedAt := now } },
         cache1, []) := by
    simp only [GetGameDetailsUseCase.execute]
    rw [hget]
    cases cached with
    | none => simp [GetGameDetailsUseCase.fetchPath]
    | some c =>
        rcases h with h | ⟨c', hc', hcond⟩
        · rw [hget] at h
          exact absurd h (by simp)
        · rw [hget] at hc'
          have hcc : c = c' := by
            have := hc'
            simp only at this
            exact Option.some.injEq _ _ ▸ this
          subst hcc
          simp [hcond, GetGameDetailsUseCase.fetchPath]
  have h3 : ∀ k2, cache1 k2 = cache k2
      ∨ (k2 = GetGameDetailsUseCase.buildCacheKey gameId ∧ cache1 k2 = none
         ∧ ∃ e, cache k2 = some e ∧ now > e.expiresAt) := by
    intro k2
    have hg := hget
    unfold InMemoryCacheService.get at hg
    cases hck : cache (GetGameDetailsUseCase.buildCacheKey gameId) with
    | none =>
        rw [hck] at hg
        injection hg with h1 h2
        left
        rw [← h2]
    | some e =>
        simp only [hck] at hg
        by_cases hexp : now > e.expiresAt
        · rw [if_pos hexp] at hg
          injection hg with h1 h2
          by_cases hk2 : k2 = GetGameDetailsUseCase.buildCacheKey gameId
          · refine Or.inr ⟨hk2, ?_, e, ?_, hexp⟩
            · rw [← h2]
              simp [hk2]
            · rw [hk2]
              exact hck
          · left
            rw [← h2]
            simp [hk2]
        · rw [if_neg hexp] at hg
          injection hg with h1 h2
          left
          rw [← h2]
  have hhit : ∀ (cache2 : CacheMap GameDetailsResult) (id2 : String) (fb : Option Game)
      (t : ℚ), (GetGameDetailsUseCase.execute cache2 id2 fb t).1.fromCache = true →
      (GetGameDetailsUseCase.execute cache2 id2 fb t).1.game.isSome = true := by
    intro cache2 id2 fb t hfc
    rcases hg : InMemoryCacheService.get cache2 (GetGameDetailsUseCase.buildCacheKey id2) t
      with ⟨cached2, c21⟩
    cases cached2 with
    | none =>
        have hE : GetGameDetailsUseCase.execute cache2 id2 fb t
            = GetGameDetailsUseCase.fetchPath c21
                (GetGameDetailsUseCase.buildCacheKey id2) fb t := by
          simp only [GetGameDetailsUseCase.execute]
          rw [hg]
        rw [hE] at hfc
        exfalso
        cases fb <;> simp [GetGameDetailsUseCase.fetchPath] at hfc
    | some c =>
        by_cases hcond : (c.game.isSome && !(GetGameDetailsUseCase.shouldRefreshCache c t))
            = true
        · have hE : GetGameDetailsUseCase.execute cache2 id2 fb t
              = ({ game := c.game, fromCache := true, metadata := c.metadata }, c21,
                 ["game-details.cache-hit"]) := by
            simp only [GetGameDetailsUseCase.execute]
            rw [hg]
            simp [hcond]
          rw [hE]
          simp at hcond
          simpa using hcond.1
        · have hE : GetGameDetailsUseCase.execute cache2 id2 fb t
              = GetGameDetailsUseCase.fetchPath c21
                  (GetGameDetailsUseCase.buildCacheKey id2) fb t := by
            simp only [GetGameDetailsUseCase.execute]
            rw [hg]
            simp [hcond]
          rw [hE] at hfc
          exfalso
          cases fb <;> simp [GetGameDetailsUseCase.fetchPath] at hfc
  refine ⟨by rw [hexec], by rw [hexec], ?_, by rw [hexec], hhit⟩
  intro k2
  have := h3 k2
  simpa [hexec] using this

/-- Witness for `gameDetails_notFound_writes_nothing`: a miss on an empty
cache with `findById` null, and a cache hit on a fresh non-null entry for
the hit-implies-non-null conjunct. -/
theorem gameDetails_notFound_writes_nothing_witness :
    (GetGameDetailsUseCase.execute (CacheMap.empty GameDetailsResult) "g1" none 5).1
        = { game := none, fromCache := false, metadata := { cachedAt := 5 } } ∧
    (GetGameDetailsUseCase.execute (CacheMap.empty GameDetailsResult) "g1" none 5).2.2 = [] ∧
    (GetGameDetailsUseCase.execute freshDetailsCache "g2" none 1000).1.game.isSome = true := by
  have h := gameDetails_notFound_writes_nothing (CacheMap.empty GameDetailsResult) "g1" 5
    (Or.inl rfl)
  refine ⟨h.1, h.2.2.2.1, h.2.2.2.2 freshDetailsCache "g2" none 1000 ?_⟩
  have hstr : "game:" ++ "g2" = "game:g2" := rfl
  norm_num [GetGameDetailsUseCase.execute, InMemoryCacheService.get, freshDetailsCache,
    GetGameDetailsUseCase.buildCacheKey, GetGameDetailsUseCase.shouldRefreshCache,
    Game.isLive, Game.isCompleted, isLiveStatus, isCompletedStatus, hstr]
